import Mathlib

/-!
Verification of the context-retrieval subsystem of the `conivel` repository
(`conivel/datas/context.py`), against its natural-language specification.

The Python code is shallowly embedded: pure functions become Lean functions,
fallible operations (list indexing, `torch.topk`, assertions, `ValueError`s)
return `Except String`, floating point scores are modelled as rationals, and
the external random source (`random.sample`), the external POS tagger
(`nltk.pos_tag`), the external BM25 scoring library (`rank_bm25.BM25Okapi`)
and the neural classifier are passed in as explicit function parameters.
-/

namespace Conivel

/-- Modelled from the spec: `NERSentence` (from `conivel.datas`, not under
`src/`) is a record of tokens, an equal-length list of tags, and two lists of
context sentences (left and right) used to build model input.  The code in
`context.py` only ever constructs it positionally as
`NERSentence(tokens, tags, left_context, right_context)` and reads those four
fields. -/
inductive NERSentence : Type where
  | mk : List String → List String → List NERSentence → List NERSentence → NERSentence

def NERSentence.tokens : NERSentence → List String
  | .mk t _ _ _ => t

def NERSentence.tags : NERSentence → List String
  | .mk _ t _ _ => t

def NERSentence.left_context : NERSentence → List NERSentence
  | .mk _ _ l _ => l

def NERSentence.right_context : NERSentence → List NERSentence
  | .mk _ _ _ r => r

instance : Inhabited NERSentence := ⟨.mk [] [] [] []⟩

/-- The two values of the `Literal["left", "right"]` side tag of a
`ContextRetrievalMatch`. -/
inductive Side : Type where
  | left
  | right
deriving DecidableEq, BEq, Repr

/-- `ContextRetrievalMatch` (context.py, lines 20-25): a matched sentence, its
zero-based position in the document, its side, and an optional score. -/
structure ContextRetrievalMatch : Type where
  sentence : NERSentence
  sentence_idx : ℕ
  side : Side
  score : Option ℚ

deriving instance DecidableEq for Except

/-- Python list indexing `l[i]` for a non-negative index: returns the element
or raises `IndexError`. -/
def pyGet (l : List α) (i : ℕ) : Except String α :=
  match l[i]? with
  | some x => Except.ok x
  | none => Except.error ("IndexError")

/-- Python `range(a, b)` for non-negative bounds. -/
def pyRange (a b : ℕ) : List ℕ :=
  (List.range (b - a)).map (a + ·)

/-- Monadic map over `Except`, modelling a Python list comprehension in which
each element computation may raise. -/
def pyMapM (f : α → Except String β) : List α → Except String (List β)
  | [] => Except.ok []
  | a :: as => do
    let b ← f a
    let bs ← pyMapM f as
    pure (b :: bs)

/-- Insertion of `a` into `l` in front of the first element that does not have
to precede `a`; `lt a b` means `a` has to come strictly before `b`. -/
def insertLe (lt : α → α → Bool) (a : α) : List α → List α
  | [] => [a]
  | b :: bs => if lt a b then a :: b :: bs else b :: insertLe lt a bs

/-- Stable insertion sort, used to model Python `sorted` and the sorted output
of `torch.topk` / `torch.argsort`. -/
def sortByLe (lt : α → α → Bool) : List α → List α
  | [] => []
  | a :: as => insertLe lt a (sortByLe lt as)

/-- `LeftContextRetriever.retrieve` (context.py, lines 210-219 analogue at
192-201): matches for `range(max(0, sent_idx - sents_nb), sent_idx)`, each
tagged `left`.  Natural subtraction coincides with `max(0, ...)`. -/
def leftRetrieve (sents_nb sent_idx : ℕ) (document : List NERSentence) :
    Except String (List ContextRetrievalMatch) :=
  pyMapM
    (fun i => (pyGet document i).map (fun s => ⟨s, i, Side.left, none⟩))
    (pyRange (sent_idx - sents_nb) sent_idx)

/-- `RightContextRetriever.retrieve` (context.py, lines 210-219): matches for
`range(sent_idx + 1, sent_idx + 1 + sents_nb)`, each tagged `right`.  The
range is not clipped at the end of the document, so `document[i]` can raise. -/
def rightRetrieve (sents_nb sent_idx : ℕ) (document : List NERSentence) :
    Except String (List ContextRetrievalMatch) :=
  pyMapM
    (fun i => (pyGet document i).map (fun s => ⟨s, i, Side.right, none⟩))
    (pyRange (sent_idx + 1) (sent_idx + 1 + sents_nb))

/-- `NeighborsContextRetriever.retrieve` (context.py, lines 165-183):
`sents_nb // 2` nearest preceding sentences (clipped at 0) and
`sents_nb // 2` following ones (not clipped at the end of the document). -/
def neighborsRetrieve (sents_nb sent_idx : ℕ) (document : List NERSentence) :
    Except String (List ContextRetrievalMatch) := do
  let l ← pyMapM
    (fun i => (pyGet document i).map (fun s => ⟨s, i, Side.left, none⟩))
    (pyRange (sent_idx - sents_nb / 2) sent_idx)
  let r ← pyMapM
    (fun i => (pyGet document i).map (fun s => ⟨s, i, Side.right, none⟩))
    (pyRange (sent_idx + 1) (sent_idx + 1 + sents_nb / 2))
  pure (l ++ r)

/-- `RandomContextRetriever.retrieve` (context.py, lines 82-99).  The external
random source is the explicit parameter `sample`, modelling
`random.sample(population, k)`; the code sorts the sampled indices and builds
one match per index, with the side determined by comparison with `sent_idx`. -/
def randomRetrieve (sample : List ℕ → ℕ → List ℕ) (sents_nb sent_idx : ℕ)
    (document : List NERSentence) : Except String (List ContextRetrievalMatch) :=
  let population := (List.range document.length).filter (fun i => !(i == sent_idx))
  let selected := sample population (min (document.length - 1) sents_nb)
  let selected := sortByLe (fun a b => decide (a < b)) selected
  pyMapM
    (fun i => (pyGet document i).map
      (fun s => ⟨s, i, if i < sent_idx then Side.left else Side.right, none⟩))
    selected

/-- Python `enumerate` over a list, starting at `n`. -/
def pyEnumFrom (n : ℕ) : List α → List (ℕ × α)
  | [] => []
  | a :: as => (n, a) :: pyEnumFrom (n + 1) as

/-- `SameNounRetriever.retrieve` (context.py, lines 118-147).  The external
POS tagger `nltk.pos_tag` is the explicit parameter `posTag` and the random
source is `sample`, as in `randomRetrieve`.  A sentence is eligible when it is
not the target and shares at least one noun token with the target. -/
def sameNounRetrieve (posTag : List String → List (String × String))
    (sample : List ℕ → ℕ → List ℕ) (sents_nb sent_idx : ℕ)
    (document : List NERSentence) : Except String (List ContextRetrievalMatch) := do
  let sent ← pyGet document sent_idx
  let tagged := posTag sent.tokens
  let nameTokens := (tagged.filter (fun t => t.2.startsWith ("NN"))).map (·.1)
  let selectedIdxs := ((pyEnumFrom 0 document).filter
    (fun p => !(p.1 == sent_idx) && nameTokens.any (fun t => p.2.tokens.contains t))).map (·.1)
  let selected := sample selectedIdxs (min sents_nb selectedIdxs.length)
  let selected := sortByLe (fun a b => decide (a < b)) selected
  pyMapM
    (fun i => (pyGet document i).map
      (fun s => ⟨s, i, if i < sent_idx then Side.left else Side.right, none⟩))
    selected

/-- The list of `(value, index)` pairs of a score vector, index starting at
`n`; `indexedFrom 0 xs` pairs each score with its position. -/
def indexedFrom (n : ℕ) : List ℚ → List (ℚ × ℕ)
  | [] => []
  | x :: xs => (x, n) :: indexedFrom (n + 1) xs

/-- Strict precedence used for descending sorts of `(value, index)` pairs:
`p` must precede `q` exactly when `p`'s value is strictly larger. -/
def topkLt (p q : ℚ × ℕ) : Bool := decide (q.1 < p.1)

/-- `torch.topk(t, k)` over a 1-dimensional tensor: the `k` largest entries
with their indices, sorted by decreasing value (ties broken by position, one
deterministic refinement of torch's unspecified tie order); raises when `k`
exceeds the number of entries. -/
def torchTopk (xs : List ℚ) (k : ℕ) : Except String (List (ℚ × ℕ)) :=
  if k ≤ xs.length then
    Except.ok ((sortByLe topkLt (indexedFrom 0 xs)).take k)
  else
    Except.error ("RuntimeError")

/-- `BM25ContextRetriever.retrieve` (context.py, lines 237-255).  The external
BM25 library is the explicit parameter `getScores`, modelling
`BM25Okapi(corpus).get_scores(query)`.  The target's score is forced to `-1`
(`sent_scores[sent_idx] = -1`), then `torch.topk` selects `sents_nb` entries
and one match per selected `(value, index)` pair is returned in topk order. -/
def bm25Retrieve (getScores : List (List String) → List String → List ℚ)
    (sents_nb sent_idx : ℕ) (document : List NERSentence) :
    Except String (List ContextRetrievalMatch) := do
  let query ← (pyGet document sent_idx).map NERSentence.tokens
  let pairs ← torchTopk
    ((getScores (document.map NERSentence.tokens) query).set sent_idx (-1)) sents_nb
  pyMapM
    (fun p => (pyGet document p.2).map
      (fun s => ⟨s, p.2, if p.2 < sent_idx then Side.left else Side.right, some p.1⟩))
    pairs

/-- A concrete one-token sentence, used in concrete evaluations. -/
def s0 : NERSentence := .mk ["Hello"] ["O"] [] []

/-- A second concrete sentence. -/
def s1 : NERSentence := .mk ["John"] ["B-PER"] [] []

/-- A third concrete sentence. -/
def s2 : NERSentence := .mk ["ran"] ["O"] [] []

/-- Claim C1: for every heuristic retriever, every document, every valid
`sent_idx` and every single-integer `sents_nb`, `retrieve` returns exactly
`min(sents_nb, available)` matches and never raises.  This is FALSE on the
code: `RightContextRetriever.retrieve` (and the right half of
`NeighborsContextRetriever.retrieve`) indexes `document[i]` for
`i` in `range(sent_idx + 1, sent_idx + 1 + sents_nb)` without clipping at the
end of the document, raising `IndexError`, and `BM25ContextRetriever.retrieve`
calls `torch.topk` with `k = sents_nb`, which raises when `sents_nb` exceeds
the document length.  This theorem evaluates the embedded code on the failing
inputs: a 1-sentence document with `sent_idx = 0`, `sents_nb = 1` (right),
`sents_nb = 2` (neighbors), and a 2-sentence document with `sents_nb = 3`
(BM25); the claim demands `Except.ok` results of lengths 0, 0 and 1. -/
theorem c1_right_neighbors_bm25_raise :
    rightRetrieve 1 0 [s0] = Except.error ("IndexError")
      ∧ neighborsRetrieve 2 0 [s0] = Except.error ("IndexError")
      ∧ bm25Retrieve (fun _ _ => [0, 0]) 3 0 [s0, s1] = Except.error ("RuntimeError") := by
  refine ⟨rfl, rfl, rfl⟩

/-! ### Generic facts about the embedding helpers -/

theorem except_bind_ok (b : α) (g : α → Except String β) :
    (Except.ok b >>= g) = g b := rfl

theorem except_bind_error (e : String) (g : α → Except String β) :
    ((Except.error e : Except String α) >>= g) = Except.error e := rfl

theorem pyMapM_cons_ok {f : α → Except String β} {a : α} {as : List α} {r : List β}
    (h : pyMapM f (a :: as) = Except.ok r) :
    ∃ b bs, f a = Except.ok b ∧ pyMapM f as = Except.ok bs ∧ r = b :: bs := by
  rw [pyMapM] at h
  cases hfa : f a with
  | error e => rw [hfa, except_bind_error] at h; cases h
  | ok b =>
    rw [hfa, except_bind_ok] at h
    cases hrest : pyMapM f as with
    | error e => rw [hrest, except_bind_error] at h; cases h
    | ok bs =>
      rw [hrest, except_bind_ok] at h
      exact ⟨b, bs, rfl, rfl, (Except.ok.injEq _ _).mp h.symm⟩

theorem pyMapM_ok_forall₂ {f : α → Except String β} :
    ∀ {l : List α} {r : List β}, pyMapM f l = Except.ok r →
      List.Forall₂ (fun a b => f a = Except.ok b) l r := by
  intro l
  induction l with
  | nil =>
    intro r h
    rw [pyMapM] at h
    cases h
    exact List.Forall₂.nil
  | cons a as ih =>
    intro r h
    rcases pyMapM_cons_ok h with ⟨b, bs, hb, hbs, rfl⟩
    exact List.Forall₂.cons hb (ih hbs)

theorem pyMapM_ok_of_forall {f : α → Except String β} :
    ∀ {l : List α}, (∀ a ∈ l, ∃ b, f a = Except.ok b) →
      ∃ r, pyMapM f l = Except.ok r ∧ List.Forall₂ (fun a b => f a = Except.ok b) l r := by
  intro l
  induction l with
  | nil => exact fun _ => ⟨[], rfl, List.Forall₂.nil⟩
  | cons a as ih =>
    intro h
    rcases h a (List.mem_cons_self a as) with ⟨b, hb⟩
    rcases ih (fun x hx => h x (List.mem_cons_of_mem a hx)) with ⟨r, hr, hF⟩
    refine ⟨b :: r, ?_, List.Forall₂.cons hb hF⟩
    rw [pyMapM, hb, except_bind_ok, hr, except_bind_ok]
    rfl

theorem forall₂_mem_right {R : α → β → Prop} {l : List α} {r : List β}
    (h : List.Forall₂ R l r) : ∀ b ∈ r, ∃ a ∈ l, R a b := by
  induction h with
  | nil => intro b hb; cases hb
  | cons hR hF ih =>
    intro b hb
    rcases List.mem_cons.mp hb with rfl | hb
    · exact ⟨_, List.mem_cons_self _ _, hR⟩
    · rcases ih b hb with ⟨a, ha, hr⟩
      exact ⟨a, List.mem_cons_of_mem _ ha, hr⟩

theorem forall₂_map_eq {R : α → β → Prop} {f : β → γ} {g : α → γ}
    (hfg : ∀ a b, R a b → f b = g a) :
    ∀ {l : List α} {r : List β}, List.Forall₂ R l r → r.map f = l.map g := by
  intro l r h
  induction h with
  | nil => rfl
  | cons hR hF ih => simp only [List.map_cons, hfg _ _ hR, ih]

theorem mem_pyRange {a b i : ℕ} (h : i ∈ pyRange a b) : a ≤ i ∧ i < b := by
  rcases List.mem_map.mp h with ⟨j, hj, rfl⟩
  have hj' := List.mem_range.mp hj
  omega

theorem pyGet_eq_ok [Inhabited α] {l : List α} {i : ℕ} (h : i < l.length) :
    pyGet l i = Except.ok (l.getD i default) := by
  rw [pyGet, List.getElem?_eq_getElem h]
  simp [List.getD_eq_getElem?_getD, List.getElem?_eq_getElem h]

theorem pyGet_ok_inv {l : List α} {i : ℕ} {x : α} (h : pyGet l i = Except.ok x) :
    l[i]? = some x := by
  rw [pyGet] at h
  cases hl : l[i]? with
  | none => rw [hl] at h; cases h
  | some y => rw [hl] at h; cases h; rfl

/-! ### Stable insertion sort: permutation and sortedness -/

theorem insertLe_perm (lt : α → α → Bool) (a : α) (l : List α) :
    List.Perm (insertLe lt a l) (a :: l) := by
  induction l with
  | nil => exact List.Perm.refl _
  | cons b bs ih =>
    rw [insertLe]
    split
    · exact List.Perm.refl _
    · exact (ih.cons b).trans (List.Perm.swap a b bs)

theorem sortByLe_perm (lt : α → α → Bool) (l : List α) :
    List.Perm (sortByLe lt l) l := by
  induction l with
  | nil => exact List.Perm.refl _
  | cons a as ih => exact (insertLe_perm lt a (sortByLe lt as)).trans (ih.cons a)

theorem insertLe_pairwise (lt : α → α → Bool)
    (hasymm : ∀ a b, lt a b = true → lt b a = false)
    (htrans : ∀ a b c, lt a b = true → lt b c = true → lt a c = true)
    (a : α) (l : List α) (hl : l.Pairwise (fun x y => lt y x = false)) :
    (insertLe lt a l).Pairwise (fun x y => lt y x = false) := by
  induction l with
  | nil => simp [insertLe]
  | cons b bs ih =>
    rw [List.pairwise_cons] at hl
    rw [insertLe]
    split
    · next hab =>
      refine List.Pairwise.cons ?_ (List.Pairwise.cons hl.1 hl.2)
      intro y hy
      rcases List.mem_cons.mp hy with rfl | hy
      · exact hasymm a y hab
      · have hyb := hl.1 y hy
        by_contra hc
        rw [Bool.not_eq_false] at hc
        rw [htrans y a b hc hab] at hyb
        cases hyb
    · next hab =>
      rw [Bool.not_eq_true] at hab
      refine List.Pairwise.cons ?_ (ih hl.2)
      intro y hy
      rcases List.mem_cons.mp ((insertLe_perm lt a bs).mem_iff.mp hy) with rfl | hy
      · exact hab
      · exact hl.1 y hy

theorem sortByLe_pairwise (lt : α → α → Bool)
    (hasymm : ∀ a b, lt a b = true → lt b a = false)
    (htrans : ∀ a b c, lt a b = true → lt b c = true → lt a c = true)
    (l : List α) :
    (sortByLe lt l).Pairwise (fun x y => lt y x = false) := by
  induction l with
  | nil => exact List.Pairwise.nil
  | cons a as ih => exact insertLe_pairwise lt hasymm htrans a _ ih

/-! ### Facts about `indexedFrom` -/

theorem indexedFrom_length : ∀ (xs : List ℚ) (n : ℕ), (indexedFrom n xs).length = xs.length := by
  intro xs
  induction xs with
  | nil => intro n; rfl
  | cons x xs ih => intro n; simp [indexedFrom, ih]

theorem mem_indexedFrom {p : ℚ × ℕ} :
    ∀ {xs : List ℚ} {n : ℕ}, p ∈ indexedFrom n xs →
      n ≤ p.2 ∧ p.2 < n + xs.length ∧ p.1 = xs.getD (p.2 - n) 0 := by
  intro xs
  induction xs with
  | nil => intro n h; cases h
  | cons x xs ih =>
    intro n h
    rcases List.mem_cons.mp h with rfl | h
    · simp
    · have h' := ih h
      refine ⟨by omega, by simp only [List.length_cons]; omega, ?_⟩
      have h2 : p.2 - n = (p.2 - (n + 1)) + 1 := by omega
      rw [h2, List.getD_cons_succ]
      exact h'.2.2

theorem indexedFrom_mem {xs : List ℚ} {j : ℕ} :
    ∀ {n : ℕ}, j < xs.length → (xs.getD j 0, n + j) ∈ indexedFrom n xs := by
  induction xs generalizing j with
  | nil => intro n h; cases h
  | cons x xs ih =>
    intro n h
    cases j with
    | zero => simp [indexedFrom]
    | succ j =>
      have h' : j < xs.length := by simpa using Nat.lt_of_succ_lt_succ h
      have := ih (n := n + 1) h'
      rw [indexedFrom]
      refine List.mem_cons_of_mem _ ?_
      have harith : n + 1 + j = n + (j + 1) := by omega
      rw [List.getD_cons_succ]
      rw [harith] at this
      exact this

theorem indexedFrom_map_snd : ∀ (xs : List ℚ) (n : ℕ),
    (indexedFrom n xs).map (·.2) = List.range' n xs.length := by
  intro xs
  induction xs with
  | nil => intro n; rfl
  | cons x xs ih => intro n; simp [indexedFrom, ih, List.range'_succ]

theorem except_map_ok (f : α → β) (x : α) :
    (Except.ok x : Except String α).map f = Except.ok (f x) := rfl

theorem except_map_error (f : α → β) (e : String) :
    (Except.error e : Except String α).map f = Except.error e := rfl

/-! ### Named views of the internals of `BM25ContextRetriever.retrieve` -/

/-- The query of `BM25ContextRetriever.retrieve`: the target sentence's
tokens. -/
def bm25Query (document : List NERSentence) (sent_idx : ℕ) : List String :=
  (document.getD sent_idx default).tokens

/-- The raw score vector `bm25_model.get_scores(query)`. -/
def bm25RawScores (getScores : List (List String) → List String → List ℚ)
    (sent_idx : ℕ) (document : List NERSentence) : List ℚ :=
  getScores (document.map NERSentence.tokens) (bm25Query document sent_idx)

/-- The score vector after `sent_scores[sent_idx] = -1`. -/
def bm25ModScores (getScores : List (List String) → List String → List ℚ)
    (sent_idx : ℕ) (document : List NERSentence) : List ℚ :=
  (bm25RawScores getScores sent_idx document).set sent_idx (-1)

/-- All `(score, index)` pairs sorted by decreasing score. -/
def bm25SortedPairs (getScores : List (List String) → List String → List ℚ)
    (sent_idx : ℕ) (document : List NERSentence) : List (ℚ × ℕ) :=
  sortByLe topkLt (indexedFrom 0 (bm25ModScores getScores sent_idx document))

/-- The `(score, index)` pairs selected by `torch.topk`, in topk order. -/
def bm25TopPairs (getScores : List (List String) → List String → List ℚ)
    (sents_nb sent_idx : ℕ) (document : List NERSentence) : List (ℚ × ℕ) :=
  (bm25SortedPairs getScores sent_idx document).take sents_nb

theorem topkLt_asymm : ∀ p q : ℚ × ℕ, topkLt p q = true → topkLt q p = false := by
  intro p q h
  rw [topkLt, decide_eq_true_eq] at h
  rw [topkLt, decide_eq_false_iff_not]
  exact lt_asymm h

theorem topkLt_trans : ∀ p q r : ℚ × ℕ,
    topkLt p q = true → topkLt q r = true → topkLt p r = true := by
  intro p q r h1 h2
  rw [topkLt, decide_eq_true_eq] at h1 h2 ⊢
  exact lt_trans h2 h1

theorem bm25SortedPairs_perm (getScores : List (List String) → List String → List ℚ)
    (sent_idx : ℕ) (document : List NERSentence) :
    List.Perm (bm25SortedPairs getScores sent_idx document)
      (indexedFrom 0 (bm25ModScores getScores sent_idx document)) :=
  sortByLe_perm _ _

theorem bm25SortedPairs_pairwise (getScores : List (List String) → List String → List ℚ)
    (sent_idx : ℕ) (document : List NERSentence) :
    (bm25SortedPairs getScores sent_idx document).Pairwise
      (fun p q => topkLt q p = false) :=
  sortByLe_pairwise _ topkLt_asymm topkLt_trans _

/-- Every pair selected by `torch.topk` carries the score found at its own
index in the modified score vector, and that index is in range. -/
theorem bm25TopPairs_mem {getScores : List (List String) → List String → List ℚ}
    {sents_nb sent_idx : ℕ} {document : List NERSentence} {p : ℚ × ℕ}
    (hp : p ∈ bm25TopPairs getScores sents_nb sent_idx document) :
    p.2 < (bm25ModScores getScores sent_idx document).length ∧
      p.1 = (bm25ModScores getScores sent_idx document).getD p.2 0 := by
  have hp' : p ∈ bm25SortedPairs getScores sent_idx document := List.mem_of_mem_take hp
  have h := mem_indexedFrom ((bm25SortedPairs_perm getScores sent_idx document).mem_iff.mp hp')
  refine ⟨by omega, ?_⟩
  have h2 : p.2 - 0 = p.2 := by omega
  rw [← h2]
  exact h.2.2

/-- Successful-run characterization of `BM25ContextRetriever.retrieve`: when
the index is valid, the external score vector has one entry per sentence and
at most `len(document)` sentences are requested, the call returns `Except.ok`
and its matches correspond 1-1, in order, to the topk `(score, index)`
pairs. -/
theorem bm25Retrieve_ok {getScores : List (List String) → List String → List ℚ}
    {sents_nb sent_idx : ℕ} {document : List NERSentence}
    (hidx : sent_idx < document.length)
    (hlen : (bm25RawScores getScores sent_idx document).length = document.length)
    (hk : sents_nb ≤ document.length) :
    ∃ ms, bm25Retrieve getScores sents_nb sent_idx document = Except.ok ms ∧
      List.Forall₂
        (fun (p : ℚ × ℕ) m => m.sentence_idx = p.2 ∧ m.score = some p.1 ∧
          m.side = (if p.2 < sent_idx then Side.left else Side.right))
        (bm25TopPairs getScores sents_nb sent_idx document) ms := by
  have hmodlen : (bm25ModScores getScores sent_idx document).length = document.length := by
    rw [bm25ModScores, List.length_set]
    exact hlen
  have htopk : torchTopk (bm25ModScores getScores sent_idx document) sents_nb
      = Except.ok (bm25TopPairs getScores sents_nb sent_idx document) := by
    rw [torchTopk, if_pos (by rw [hmodlen]; exact hk)]
    rfl
  have hvalid : ∀ p ∈ bm25TopPairs getScores sents_nb sent_idx document,
      p.2 < document.length := by
    intro p hp
    have := (bm25TopPairs_mem hp).1
    omega
  rcases pyMapM_ok_of_forall
      (f := fun (p : ℚ × ℕ) => (pyGet document p.2).map
        (fun s => (⟨s, p.2, if p.2 < sent_idx then Side.left else Side.right,
          some p.1⟩ : ContextRetrievalMatch)))
      (l := bm25TopPairs getScores sents_nb sent_idx document)
      (fun p hp => ⟨⟨document.getD p.2 default, p.2,
          if p.2 < sent_idx then Side.left else Side.right, some p.1⟩,
        by simp only [pyGet_eq_ok (hvalid p hp), except_map_ok]⟩)
    with ⟨ms, hms, hF⟩
  refine ⟨ms, ?_, ?_⟩
  · rw [bm25Retrieve, pyGet_eq_ok hidx, except_map_ok, except_bind_ok]
    have htopk' : torchTopk ((getScores (document.map NERSentence.tokens)
        (document.getD sent_idx default).tokens).set sent_idx (-1)) sents_nb
        = Except.ok (bm25TopPairs getScores sents_nb sent_idx document) := htopk
    rw [htopk', except_bind_ok]
    exact hms
  · refine hF.imp ?_
    intro p m hpm
    cases hg : pyGet document p.2 with
    | error e => rw [hg, except_map_error] at hpm; cases hpm
    | ok s =>
      rw [hg, except_map_ok] at hpm
      injection hpm with hpm
      rw [← hpm]
      exact ⟨rfl, rfl, rfl⟩

/-- The selected topk pairs never carry the target's own index, provided
strictly fewer than `len(document)` sentences are requested and the genuine
BM25 scores are non-negative (so the `-1` sentinel put at the target's index
is strictly minimal). -/
theorem bm25_no_self {getScores : List (List String) → List String → List ℚ}
    {sents_nb sent_idx : ℕ} {document : List NERSentence}
    (hidx : sent_idx < document.length)
    (hlen : (bm25RawScores getScores sent_idx document).length = document.length)
    (hk : sents_nb + 1 ≤ document.length)
    (hnn : ∀ x ∈ bm25RawScores getScores sent_idx document, 0 ≤ x) :
    ∀ p ∈ bm25TopPairs getScores sents_nb sent_idx document, p.2 ≠ sent_idx := by
  intro p hp hps
  have hmodlen : (bm25ModScores getScores sent_idx document).length = document.length := by
    rw [bm25ModScores, List.length_set]
    exact hlen
  have hSlen : (bm25SortedPairs getScores sent_idx document).length = document.length := by
    rw [(bm25SortedPairs_perm getScores sent_idx document).length_eq,
      indexedFrom_length]
    exact hmodlen
  -- the pair at the target's index carries the sentinel score -1
  have hp1 : p.1 = (-1 : ℚ) := by
    have h := (bm25TopPairs_mem hp).2
    rw [hps] at h
    rw [h, List.getD_eq_getElem?_getD, bm25ModScores,
      List.getElem?_set_self (by rw [hlen]; exact hidx)]
    rfl
  -- some pair q remains after the topk cut
  have hdroplen :
      0 < ((bm25SortedPairs getScores sent_idx document).drop sents_nb).length := by
    rw [List.length_drop, hSlen]
    omega
  rcases List.exists_mem_of_length_pos hdroplen with ⟨q, hq⟩
  -- by sortedness, q's score is at most p's score = -1
  have hsplit := List.take_append_drop sents_nb (bm25SortedPairs getScores sent_idx document)
  have hpw := bm25SortedPairs_pairwise getScores sent_idx document
  rw [← hsplit, List.pairwise_append] at hpw
  have hqlep : topkLt q p = false := hpw.2.2 p hp q hq
  rw [topkLt, decide_eq_false_iff_not, not_lt] at hqlep
  -- q is a genuine (score, index) pair over the modified vector
  have hqS : q ∈ bm25SortedPairs getScores sent_idx document := by
    rw [← hsplit]
    exact List.mem_append_right _ hq
  have hqI := mem_indexedFrom
    ((bm25SortedPairs_perm getScores sent_idx document).mem_iff.mp hqS)
  -- q's index differs from the target's: the indices of the sorted pairs are
  -- pairwise distinct and sent_idx already occurs in the taken prefix
  have hqne : q.2 ≠ sent_idx := by
    intro hqe
    have hnodup : ((bm25SortedPairs getScores sent_idx document).map (·.2)).Nodup := by
      rw [List.Perm.nodup_iff
        (List.Perm.map _ (bm25SortedPairs_perm getScores sent_idx document)),
        indexedFrom_map_snd]
      exact List.nodup_range' _ _
    rw [← hsplit, List.map_append, List.nodup_append] at hnodup
    have h1 : p.2 ∈
        (List.take sents_nb (bm25SortedPairs getScores sent_idx document)).map (·.2) :=
      List.mem_map_of_mem _ hp
    have h2 : q.2 ∈
        (List.drop sents_nb (bm25SortedPairs getScores sent_idx document)).map (·.2) :=
      List.mem_map_of_mem _ hq
    rw [hps] at h1
    rw [hqe] at h2
    exact hnodup.2.2 h1 h2
  -- but q's genuine score is non-negative, contradicting q.1 ≤ -1
  have hq2len : q.2 < (bm25RawScores getScores sent_idx document).length := by
    rw [hlen]
    omega
  have hqval : q.1 = (bm25RawScores getScores sent_idx document).getD q.2 0 := by
    have h2 : q.2 - 0 = q.2 := by omega
    rw [hqI.2.2, h2, List.getD_eq_getElem?_getD, bm25ModScores,
      List.getElem?_set_ne (fun he => hqne he.symm), ← List.getD_eq_getElem?_getD]
  have hq1nn : 0 ≤ q.1 := by
    rw [hqval, List.getD_eq_getElem?_getD, List.getElem?_eq_getElem hq2len]
    exact hnn _ (List.getElem_mem hq2len)
  rw [hp1] at hqlep
  linarith

/-- Matches built by indexing the document at a list of positions record
exactly those positions in their `sentence_idx` field. -/
theorem retrieveMap_sentence_idx {document : List NERSentence}
    {mk1 : ℕ → NERSentence → ContextRetrievalMatch}
    (hmk : ∀ i s, (mk1 i s).sentence_idx = i) {idxs : List ℕ}
    {ms : List ContextRetrievalMatch}
    (h : pyMapM (fun i => (pyGet document i).map (mk1 i)) idxs = Except.ok ms) :
    ∀ m ∈ ms, ∃ i ∈ idxs, m.sentence_idx = i := by
  intro m hm
  rcases forall₂_mem_right (pyMapM_ok_forall₂ h) m hm with ⟨i, hi, hfi⟩
  refine ⟨i, hi, ?_⟩
  cases hg : pyGet document i with
  | error e => rw [hg, except_map_error] at hfi; cases hfi
  | ok s =>
    rw [hg, except_map_ok] at hfi
    injection hfi with hfi
    rw [← hfi]
    exact hmk i s

/-- Claim C2 as stated is FALSE on the code: when `sents_nb` equals the
document length, `torch.topk` selects every index of the score vector,
including the target's own index, whose score was merely forced to `-1`
rather than removed.  Concretely, on a 2-sentence document with BM25 scores
`[2, 3]`, `sents_nb = 2` and `sent_idx = 0`, the returned match list contains
a match at position 0, the target itself. -/
theorem bm25_returns_self_counterexample :
    ¬ (∀ ms, bm25Retrieve (fun _ _ => [2, 3]) 2 0 [s0, s1] = Except.ok ms →
        ∀ m ∈ ms, m.sentence_idx ≠ 0) := by
  intro h
  exact h [⟨s1, 1, Side.right, some 3⟩, ⟨s0, 0, Side.right, some (-1)⟩] rfl
    ⟨s0, 0, Side.right, some (-1)⟩
    (List.mem_cons_of_mem _ (List.mem_cons_self _ _)) rfl

/-- Claim C2, amended: the target sentence's own position never appears in
the matches returned by the random, same-noun, neighbors, left and right
retrievers (whenever they return at all, and for any behaviour of the random
sampler that picks from its population), and never in the matches returned by
the BM25 retriever provided strictly fewer than `len(document)` sentences are
requested and the BM25 library returns one non-negative score per sentence
(the code only forces the target's score to `-1`, so its exclusion relies on
the sentinel being strictly minimal). -/
theorem heuristic_retrievers_never_retrieve_self :
    (∀ sents_nb sent_idx document ms,
      leftRetrieve sents_nb sent_idx document = Except.ok ms →
        ∀ m ∈ ms, m.sentence_idx ≠ sent_idx)
  ∧ (∀ sents_nb sent_idx document ms,
      rightRetrieve sents_nb sent_idx document = Except.ok ms →
        ∀ m ∈ ms, m.sentence_idx ≠ sent_idx)
  ∧ (∀ sents_nb sent_idx document ms,
      neighborsRetrieve sents_nb sent_idx document = Except.ok ms →
        ∀ m ∈ ms, m.sentence_idx ≠ sent_idx)
  ∧ (∀ sample, (∀ pop k, ∀ i ∈ sample pop k, i ∈ pop) →
      ∀ sents_nb sent_idx document ms,
        randomRetrieve sample sents_nb sent_idx document = Except.ok ms →
          ∀ m ∈ ms, m.sentence_idx ≠ sent_idx)
  ∧ (∀ posTag sample, (∀ pop k, ∀ i ∈ sample pop k, i ∈ pop) →
      ∀ sents_nb sent_idx document ms,
        sameNounRetrieve posTag sample sents_nb sent_idx document = Except.ok ms →
          ∀ m ∈ ms, m.sentence_idx ≠ sent_idx)
  ∧ (∀ getScores sents_nb sent_idx document,
      sent_idx < document.length →
      (bm25RawScores getScores sent_idx document).length = document.length →
      sents_nb + 1 ≤ document.length →
      (∀ x ∈ bm25RawScores getScores sent_idx document, 0 ≤ x) →
      ∀ ms, bm25Retrieve getScores sents_nb sent_idx document = Except.ok ms →
        ∀ m ∈ ms, m.sentence_idx ≠ sent_idx) := by
  refine ⟨?_, ?_, ?_, ?_, ?_, ?_⟩
  · -- left retriever: positions lie in range(sent_idx - sents_nb, sent_idx)
    intro sents_nb sent_idx document ms h m hm
    rcases retrieveMap_sentence_idx (fun _ _ => rfl) h m hm with ⟨i, hi, hidx⟩
    have := mem_pyRange hi
    omega
  · -- right retriever: positions lie in range(sent_idx + 1, ...)
    intro sents_nb sent_idx document ms h m hm
    rcases retrieveMap_sentence_idx (fun _ _ => rfl) h m hm with ⟨i, hi, hidx⟩
    have := mem_pyRange hi
    omega
  · -- neighbors retriever: union of a left window and a right window
    intro sents_nb sent_idx document ms h m hm
    rw [neighborsRetrieve] at h
    cases hl : pyMapM
        (fun i => (pyGet document i).map
          (fun s => (⟨s, i, Side.left, none⟩ : ContextRetrievalMatch)))
        (pyRange (sent_idx - sents_nb / 2) sent_idx) with
    | error e => rw [hl, except_bind_error] at h; cases h
    | ok l =>
      rw [hl, except_bind_ok] at h
      cases hr : pyMapM
          (fun i => (pyGet document i).map
            (fun s => (⟨s, i, Side.right, none⟩ : ContextRetrievalMatch)))
          (pyRange (sent_idx + 1) (sent_idx + 1 + sents_nb / 2)) with
      | error e => rw [hr, except_bind_error] at h; cases h
      | ok r =>
        rw [hr, except_bind_ok] at h
        injection h with h
        rw [← h] at hm
        rcases List.mem_append.mp hm with hml | hmr
        · rcases retrieveMap_sentence_idx (fun _ _ => rfl) hl m hml with ⟨i, hi, hidx⟩
          have := mem_pyRange hi
          omega
        · rcases retrieveMap_sentence_idx (fun _ _ => rfl) hr m hmr with ⟨i, hi, hidx⟩
          have := mem_pyRange hi
          omega
  · -- random retriever: the sampled population excludes the target index
    intro sample hsample sents_nb sent_idx document ms h m hm
    rw [randomRetrieve] at h
    rcases retrieveMap_sentence_idx (fun _ _ => rfl) h m hm with ⟨i, hi, hidx⟩
    have hi' := (sortByLe_perm _ _).mem_iff.mp hi
    have hpop := hsample _ _ _ hi'
    have := (List.mem_filter.mp hpop).2
    intro he
    rw [hidx] at he
    rw [he] at this
    simp at this
  · -- same-noun retriever: eligible indices exclude the target index
    intro posTag sample hsample sents_nb sent_idx document ms h m hm
    rw [sameNounRetrieve] at h
    cases hg : pyGet document sent_idx with
    | error e => rw [hg, except_bind_error] at h; cases h
    | ok sent =>
      rw [hg, except_bind_ok] at h
      rcases retrieveMap_sentence_idx (fun _ _ => rfl) h m hm with ⟨i, hi, hidx⟩
      have hi' := (sortByLe_perm _ _).mem_iff.mp hi
      have hpop := hsample _ _ _ hi'
      rcases List.mem_map.mp hpop with ⟨p, hpmem, hpi⟩
      have hcond := (List.mem_filter.mp hpmem).2
      intro he
      rw [Bool.and_eq_true] at hcond
      have h1 := hcond.1
      rw [hpi] at h1
      rw [hidx] at he
      rw [he] at h1
      simp at h1
  · -- BM25 retriever, under the amended side conditions
    intro getScores sents_nb sent_idx document hidx hlen hk hnn ms h m hm
    rcases bm25Retrieve_ok hidx hlen (Nat.le_of_succ_le hk) with ⟨ms', h', hF⟩
    rw [h'] at h
    injection h with h
    rw [← h] at hm
    rcases forall₂_mem_right hF m hm with ⟨p, hp, hpm⟩
    rw [hpm.1]
    exact bm25_no_self hidx hlen hk hnn p hp

/-- Witness for the amended claim C2: a concrete run of the BM25 retriever on
a 2-sentence document with `sents_nb = 1`, all hypotheses discharged. -/
theorem heuristic_retrievers_never_retrieve_self_witness :
    (ContextRetrievalMatch.mk s1 1 Side.right (some 3)).sentence_idx ≠ 0 :=
  heuristic_retrievers_never_retrieve_self.2.2.2.2.2
    (fun _ _ => [2, 3]) 1 0 [s0, s1] (by decide) rfl (by decide) (by decide)
    [⟨s1, 1, Side.right, some 3⟩] rfl _ (List.mem_cons_self _ _)

/-- Claim C6 as stated is FALSE on the code: the matches are returned in the
order produced by `torch.topk` (decreasing score), not sorted by position.
On a 3-sentence document with BM25 scores `[5, 1, 3]`, target 0 and
`sents_nb = 2`, the returned positions are `[2, 1]`, which is not sorted. -/
theorem bm25_not_position_sorted_counterexample :
    (bm25Retrieve (fun _ _ => [5, 1, 3]) 2 0 [s0, s1, s2]).map
        (List.map (fun m => m.sentence_idx)) = Except.ok [2, 1]
      ∧ ¬ ([2, 1] : List ℕ).Pairwise (· ≤ ·) :=
  ⟨rfl, by decide⟩

/-- Claim C6, amended: on a valid target index, with one BM25 score per
sentence and `sents_nb ≤ len(document)`, `BM25ContextRetriever.retrieve`
returns exactly `sents_nb` matches, each carrying the score found at its own
position in the score vector modified by the `-1` target sentinel; the
matches come in non-increasing score order (the topk order, not position
order), and the selected positions carry the globally largest scores of the
modified vector: every unselected position's score is at most every selected
one's. -/
theorem bm25_selects_global_topk
    (getScores : List (List String) → List String → List ℚ)
    (sents_nb sent_idx : ℕ) (document : List NERSentence)
    (hidx : sent_idx < document.length)
    (hlen : (bm25RawScores getScores sent_idx document).length = document.length)
    (hk : sents_nb ≤ document.length) :
    ∃ ms, bm25Retrieve getScores sents_nb sent_idx document = Except.ok ms ∧
      ms.length = sents_nb ∧
      (∀ m ∈ ms, m.score =
        some ((bm25ModScores getScores sent_idx document).getD m.sentence_idx 0)) ∧
      (ms.map (fun m => m.score.getD 0)).Pairwise (fun a b => b ≤ a) ∧
      (∀ m ∈ ms, ∀ j < document.length, j ∉ ms.map (fun m' => m'.sentence_idx) →
        (bm25ModScores getScores sent_idx document).getD j 0 ≤
          (bm25ModScores getScores sent_idx document).getD m.sentence_idx 0) := by
  rcases bm25Retrieve_ok hidx hlen hk with ⟨ms, heq, hF⟩
  have hmodlen : (bm25ModScores getScores sent_idx document).length = document.length := by
    rw [bm25ModScores, List.length_set]
    exact hlen
  have hSlen : (bm25SortedPairs getScores sent_idx document).length = document.length := by
    rw [(bm25SortedPairs_perm getScores sent_idx document).length_eq, indexedFrom_length]
    exact hmodlen
  have hmapsnd : ms.map (fun m' => m'.sentence_idx)
      = (bm25TopPairs getScores sents_nb sent_idx document).map (·.2) :=
    forall₂_map_eq (fun p m h => h.1) hF
  have hmapscore : ms.map (fun m => m.score.getD 0)
      = (bm25TopPairs getScores sents_nb sent_idx document).map (·.1) :=
    forall₂_map_eq (fun p m h => by rw [h.2.1]; rfl) hF
  refine ⟨ms, heq, ?_, ?_, ?_, ?_⟩
  · rw [← hF.length_eq, bm25TopPairs, List.length_take, hSlen]
    omega
  · intro m hm
    rcases forall₂_mem_right hF m hm with ⟨p, hp, hpm⟩
    rw [hpm.2.1, hpm.1]
    rw [(bm25TopPairs_mem hp).2]
  · rw [hmapscore]
    have hT : (bm25TopPairs getScores sents_nb sent_idx document).Pairwise
        (fun p q => topkLt q p = false) :=
      List.Pairwise.sublist (List.take_sublist _ _)
        (bm25SortedPairs_pairwise getScores sent_idx document)
    rw [List.pairwise_map]
    refine hT.imp ?_
    intro p q h
    rw [topkLt, decide_eq_false_iff_not, not_lt] at h
    exact h
  · intro m hm j hj hjn
    rcases forall₂_mem_right hF m hm with ⟨p, hp, hpm⟩
    have hq : ((bm25ModScores getScores sent_idx document).getD j 0, j)
        ∈ indexedFrom 0 (bm25ModScores getScores sent_idx document) := by
      have := @indexedFrom_mem (bm25ModScores getScores sent_idx document) j 0 (by omega)
      simpa using this
    have hqS : ((bm25ModScores getScores sent_idx document).getD j 0, j)
        ∈ bm25SortedPairs getScores sent_idx document :=
      (bm25SortedPairs_perm getScores sent_idx document).mem_iff.mpr hq
    have hsplit := List.take_append_drop sents_nb (bm25SortedPairs getScores sent_idx document)
    have hqD : ((bm25ModScores getScores sent_idx document).getD j 0, j)
        ∈ List.drop sents_nb (bm25SortedPairs getScores sent_idx document) := by
      rcases List.mem_append.mp (by rw [hsplit]; exact hqS) with hqT | hqD
      · exfalso
        apply hjn
        rw [hmapsnd]
        exact List.mem_map_of_mem _ hqT
      · exact hqD
    have hpw := bm25SortedPairs_pairwise getScores sent_idx document
    rw [← hsplit, List.pairwise_append] at hpw
    have hrel := hpw.2.2 p hp _ hqD
    rw [topkLt, decide_eq_false_iff_not, not_lt] at hrel
    calc (bm25ModScores getScores sent_idx document).getD j 0 ≤ p.1 := hrel
    _ = (bm25ModScores getScores sent_idx document).getD m.sentence_idx 0 := by
        rw [hpm.1]
        exact (bm25TopPairs_mem hp).2

/-- Witness for the amended claim C6: a concrete run on a 3-sentence document
with scores `[5, 1, 3]`, target 0 and `sents_nb = 2`. -/
theorem bm25_selects_global_topk_witness :
    ∃ ms, bm25Retrieve (fun _ _ => [5, 1, 3]) 2 0 [s0, s1, s2] = Except.ok ms ∧
      ms.length = 2 ∧
      (∀ m ∈ ms, m.score =
        some ((bm25ModScores (fun _ _ => [5, 1, 3]) 0 [s0, s1, s2]).getD m.sentence_idx 0)) ∧
      (ms.map (fun m => m.score.getD 0)).Pairwise (fun a b => b ≤ a) ∧
      (∀ m ∈ ms, ∀ j < ([s0, s1, s2] : List NERSentence).length,
        j ∉ ms.map (fun m' => m'.sentence_idx) →
        (bm25ModScores (fun _ _ => [5, 1, 3]) 0 [s0, s1, s2]).getD j 0 ≤
          (bm25ModScores (fun _ _ => [5, 1, 3]) 0 [s0, s1, s2]).getD m.sentence_idx 0) :=
  bm25_selects_global_topk (fun _ _ => [5, 1, 3]) 2 0 [s0, s1, s2]
    (by decide) rfl (by decide)

/-! ### Retrieval examples, dataset items, and the prediction cache -/

/-- `ContextRetrievalExample` (context.py, lines 258-285).  The
`context_side` field is annotated `Literal["left", "right"]` in the source,
but Python dataclasses do not check annotations at runtime, so any string can
be stored; the field is therefore embedded as `String`. -/
structure ContextRetrievalExample : Type where
  sent : List String
  context : List String
  context_side : String
  usefulness : Option ℚ := none
  sent_was_correctly_predicted : Option Bool := none
deriving DecidableEq

/-- The generated `__init__` of the frozen dataclass
`ContextRetrievalExample`: it only stores the five fields; no validation is
performed, so construction never raises. -/
def mkContextRetrievalExample (sent context : List String) (context_side : String)
    (usefulness : Option ℚ) (sent_was_correctly_predicted : Option Bool) :
    Except String ContextRetrievalExample :=
  Except.ok ⟨sent, context, context_side, usefulness, sent_was_correctly_predicted⟩

/-- The token assembly of `ContextRetrievalDataset.__getitem__` (context.py,
lines 304-318): a left context yields `context + ["<"] + sent`, a right
context `sent + [">"] + context`, anything else raises `ValueError` (the
subsequent tokenizer call is external and elided). -/
def getItemTokens (ex : ContextRetrievalExample) : Except String (List String) :=
  if ex.context_side = "left" then Except.ok (ex.context ++ ["<"] ++ ex.sent)
  else if ex.context_side = "right" then Except.ok (ex.sent ++ [">"] ++ ex.context)
  else Except.error ("ValueError")

/-- Claim C9 as stated is FALSE on the code: constructing a
`ContextRetrievalExample` with side tag `"up"` succeeds and stores the tag
verbatim — the dataclass performs no runtime validation; the `ValueError` is
only raised later, by `ContextRetrievalDataset.__getitem__`. -/
theorem example_construction_does_not_validate :
    mkContextRetrievalExample ["a"] ["b"] "up" none none
        = Except.ok ⟨["a"], ["b"], "up", none, none⟩
      ∧ ("up" : String) ≠ "left" ∧ ("up" : String) ≠ "right" :=
  ⟨rfl, by decide, by decide⟩

/-- Claim C9, amended: construction always succeeds, storing the side tag
verbatim (never defaulting it); an example whose side tag is neither
`"left"` nor `"right"` makes `ContextRetrievalDataset.__getitem__` raise
`ValueError` when the example is encoded. -/
theorem invalid_side_raises_at_getitem :
    (∀ sent context context_side usefulness flag,
        mkContextRetrievalExample sent context context_side usefulness flag
          = Except.ok ⟨sent, context, context_side, usefulness, flag⟩)
      ∧ (∀ ex : ContextRetrievalExample, ex.context_side ≠ "left" →
          ex.context_side ≠ "right" →
          getItemTokens ex = Except.error ("ValueError")) := by
  refine ⟨fun _ _ _ _ _ => rfl, ?_⟩
  intro ex h1 h2
  rw [getItemTokens, if_neg h1, if_neg h2]

/-- Witness for the amended claim C9: the `"up"`-sided example is encodable
neither way and raises at `__getitem__`. -/
theorem invalid_side_raises_at_getitem_witness :
    getItemTokens ⟨["a"], ["b"], "up", none, none⟩ = Except.error ("ValueError") :=
  invalid_side_raises_at_getitem.2 ⟨["a"], ["b"], "up", none, none⟩
    (by decide) (by decide)

/-- `NeuralContextRetriever._predict_cache_get`: the prediction cache is a
dict keyed by full example identity; modelled as an association list whose
most recent entry wins, matching dict update semantics. -/
def cacheGet (c : List (ContextRetrievalExample × ℚ)) (x : ContextRetrievalExample) :
    Option ℚ :=
  match c.find? (fun p => decide (p.1 = x)) with
  | some p => some p.2
  | none => none

/-- The tensor assignment `out_scores[uncached_idxs] = scores`: writes `vals`
into `base` at positions `idxs`. -/
def scatterSet (base : List ℚ) (idxs : List ℕ) (vals : List ℚ) : List ℚ :=
  (idxs.zip vals).foldl (fun acc p => acc.set p.1 p.2) base

/-- `NeuralContextRetriever.predict` (context.py, lines 421-481), with the
neural classifier abstracted as `model` (the per-example score
`sigmoid(logit) * 2 - 1`, applied in dataset order by the batched inference
loop, which preserves order since `shuffle=False`) and device placement
elided.  Returns the output scores and the updated cache.  When caching is
enabled the cached scores are looked up first, the dataset is restricted to
the uncached examples, the model scores are written back at the uncached
indices, and the registration loop zips the *restricted* example list
against the *full* output tensor (`zip(dataset.examples, out_scores)` after
`dataset` was reassigned). -/
def predictFn (model : ContextRetrievalExample → ℚ) (useCache : Bool)
    (cache : List (ContextRetrievalExample × ℚ))
    (examples : List ContextRetrievalExample) :
    List ℚ × List (ContextRetrievalExample × ℚ) :=
  if useCache then
    let outScores0 := examples.map (cacheGet cache)
    let uncachedIdxs := ((pyEnumFrom 0 outScores0).filter (fun p => p.2.isNone)).map (·.1)
    let restricted := ((examples.zip outScores0).filter (fun p => p.2.isNone)).map (·.1)
    let outScores1 := outScores0.map (fun s => s.getD (-1))
    let scores := restricted.map model
    let outFinal := scatterSet outScores1 uncachedIdxs scores
    let newCache := (restricted.zip outFinal).foldl (fun c p => (p.1, p.2) :: c) cache
    (outFinal, newCache)
  else
    let outScores1 := examples.map (fun _ => (0 : ℚ))
    let uncachedIdxs := List.range examples.length
    let scores := examples.map model
    (scatterSet outScores1 uncachedIdxs scores, cache)

/-- A first concrete retrieval example. -/
def exA : ContextRetrievalExample := ⟨["a"], ["b"], "left", none, none⟩

/-- A second, distinct concrete retrieval example. -/
def exB : ContextRetrievalExample := ⟨["c"], ["d"], "left", none, none⟩

/-- A concrete classifier assigning `7` to `exB` and `3` to anything else. -/
def modelAB : ContextRetrievalExample → ℚ := fun e => if e = exB then 7 else 3

/-- Claim C3 is FALSE on the code (a bug): with `exA` cached at score `5` and
`exB` uncached, `predict([exA, exB])` correctly returns `[5, 7]` (only `exB`
goes through the model), but the registration loop zips the restricted
example list `[exB]` against the full output tensor `[5, 7]`, so the cache
records `exB ↦ 5` — the score of position 0 of the *original* dataset, not
the score `7` returned for `exB`'s own position.  A second `predict` call on
the same examples then returns `[5, 5] ≠ [5, 7]`. -/
theorem predict_cache_misregistration :
    (predictFn modelAB true [(exA, 5)] [exA, exB]).1 = [5, 7]
      ∧ cacheGet (predictFn modelAB true [(exA, 5)] [exA, exB]).2 exB = some 5
      ∧ (predictFn modelAB true (predictFn modelAB true [(exA, 5)] [exA, exB]).2
          [exA, exB]).1 = [5, 5] :=
  ⟨by decide, by decide, by decide⟩

/-! ### The `combine_rank` ranking policy -/

/-- `torch.argsort(-t)`: indices sorting `t` in decreasing order (ties broken
by position, one deterministic refinement of torch's unspecified tie
order). -/
def argsortDesc (xs : List ℚ) : List ℕ :=
  (sortByLe topkLt (indexedFrom 0 xs)).map (·.2)

/-- `torch.argsort(t)`: indices sorting `t` in increasing order. -/
def argsortAsc (xs : List ℚ) : List ℕ :=
  (sortByLe (fun p q => decide (p.1 < q.1)) (indexedFrom 0 xs)).map (·.2)

/-- Tensor gathering `xs[idxs]`, as in `torch.arange(0, n)[perm]`. -/
def gatherNat (xs : List ℕ) (idxs : List ℕ) : List ℕ :=
  idxs.map (fun i => xs.getD i 0)

/-- The `combine_rank` index selection of `NeuralContextRetriever.retrieve`
(context.py, lines 511-521): the code computes
`torch.arange(0, n)[torch.argsort(-scores)]` for both score vectors (this
gathers `arange` through the argsort permutation, i.e. yields the argsort
permutation itself), averages the two vectors elementwise
(`torch.mean(torch.stack(...), dim=0)`), and returns the first `sents_nb`
positions of `torch.argsort(mean_ranks)`. -/
def combineRankBestIdxs (heurScores neuralScores : List ℚ) (sents_nb : ℕ) : List ℕ :=
  let ctxMatchsRanks := gatherNat (List.range heurScores.length) (argsortDesc heurScores)
  let scoresRanks := gatherNat (List.range neuralScores.length) (argsortDesc neuralScores)
  let meanRanks := List.zipWith
    (fun a b => ((a : ℚ) + (b : ℚ)) / 2) ctxMatchsRanks scoresRanks
  (argsortAsc meanRanks).take sents_nb

/-- The rank vector described by the spec (and the docstring) for claim C5:
`ranksOfDesc xs` maps each candidate `i` to its position in the descending
argsort of `xs` (rank 0 = best), i.e. the inverse of the argsort
permutation. -/
def ranksOfDesc (xs : List ℚ) : List ℕ :=
  (List.range xs.length).map (fun i => (argsortDesc xs).indexOf i)

/-- Follows the spec's words for claim C5 (not the code): average each
candidate's descending-order *rank* under the heuristic scores and under the
neural scores, and take the `sents_nb` candidates of smallest mean rank. -/
def combineRankBestIdxsSpec (heurScores neuralScores : List ℚ) (sents_nb : ℕ) : List ℕ :=
  let ctxMatchsRanks := ranksOfDesc heurScores
  let scoresRanks := ranksOfDesc neuralScores
  let meanRanks := List.zipWith
    (fun a b => ((a : ℚ) + (b : ℚ)) / 2) ctxMatchsRanks scoresRanks
  (argsortAsc meanRanks).take sents_nb

/-- The `combine_rank` branch of `NeuralContextRetriever.retrieve`
(context.py, lines 511-533): asserts that every heuristic match carries a
score, selects indices by `combineRankBestIdxs`, and returns the selected
matches re-scored with the neural score `float(scores[i].item())`. -/
def combineRankRetrieve (ctx_matchs : List ContextRetrievalMatch)
    (scores : List ℚ) (sents_nb : ℕ) : Except String (List ContextRetrievalMatch) :=
  if ctx_matchs.any (fun m => m.score.isNone) then
    Except.error ("AssertionError")
  else
    pyMapM (fun i => do
        let m ← pyGet ctx_matchs i
        let s ← pyGet scores i
        pure (⟨m.sentence, m.sentence_idx, m.side, some s⟩ : ContextRetrievalMatch))
      (combineRankBestIdxs (ctx_matchs.map (fun m => m.score.getD 0)) scores sents_nb)

/-- Claim C5 is FALSE on the code (a bug): `torch.arange(0, n)[argsort]` is
the argsort permutation itself, not the per-candidate rank vector the
docstring ("Combine ranks ...") and the claim describe — those would be the
*inverse* permutation.  With heuristic scores `[1, 3, 2]`, neural scores
`[3, 2, 1]` and `sents_nb = 1`, the code selects candidate 0 while the
described rank combination selects candidate 1; on matches at document
positions `[10, 11, 12]` the code therefore returns the match at position
10. -/
theorem combine_rank_uses_argsort_not_ranks :
    combineRankBestIdxs [1, 3, 2] [3, 2, 1] 1 = [0]
      ∧ combineRankBestIdxsSpec [1, 3, 2] [3, 2, 1] 1 = [1]
      ∧ (combineRankRetrieve
          [⟨s0, 10, Side.left, some 1⟩, ⟨s1, 11, Side.left, some 3⟩,
            ⟨s2, 12, Side.right, some 2⟩]
          [3, 2, 1] 1).map (List.map (fun m => m.sentence_idx)) = Except.ok [10] :=
  ⟨by with_unfolding_all decide, by with_unfolding_all decide, by with_unfolding_all rfl⟩

/-! ### Dataset balancing -/

/-- Python truthiness of the `Optional[bool]` field
`sent_was_correctly_predicted`: `None` is falsy. -/
def pyTruthy : Option Bool → Bool
  | some b => b
  | none => false

/-- A Python list comprehension with a fallible filter condition. -/
def pyFilterM (f : α → Except String Bool) : List α → Except String (List α)
  | [] => Except.ok []
  | a :: as => do
    let b ← f a
    let rest ← pyFilterM f as
    pure (if b then a :: rest else rest)

/-- Python `min` over a list of naturals: raises `ValueError` on an empty
list. -/
def pyMinNat : List ℕ → Except String ℕ
  | [] => Except.error ("ValueError")
  | a :: as => Except.ok (as.foldl min a)

/-- The first stage of `NeuralContextRetriever.balance_context_dataset`
(context.py, lines 739-751): assert the dataset is non-empty, split it by
truthiness of `sent_was_correctly_predicted`, assert both groups are
non-empty, and truncate each group to the smaller group's size. -/
def balanceStage1 (examples : List ContextRetrievalExample) :
    Except String (List ContextRetrievalExample) :=
  if examples.length = 0 then Except.error ("AssertionError")
  else if (examples.filter (fun e => pyTruthy e.sent_was_correctly_predicted)).length = 0
      ∨ (examples.filter (fun e => !pyTruthy e.sent_was_correctly_predicted)).length = 0 then
    Except.error ("AssertionError")
  else
    Except.ok
      ((examples.filter (fun e => pyTruthy e.sent_was_correctly_predicted)).take
          (min (examples.filter (fun e => pyTruthy e.sent_was_correctly_predicted)).length
            (examples.filter (fun e => !pyTruthy e.sent_was_correctly_predicted)).length)
        ++ (examples.filter (fun e => !pyTruthy e.sent_was_correctly_predicted)).take
          (min (examples.filter (fun e => pyTruthy e.sent_was_correctly_predicted)).length
            (examples.filter (fun e => !pyTruthy e.sent_was_correctly_predicted)).length))

/-- The bin edges `np.arange(-1 + bins_size, 1 + bins_size, bins_size)` with
`bins_size = 2.0 / bins_nb` (context.py, lines 755-756): exactly `bins_nb`
right edges, in exact rational arithmetic. -/
def binRightEdges (bins_nb : ℕ) : List ℚ :=
  (List.range bins_nb).map (fun i => -1 + ((i : ℚ) + 1) * (2 / (bins_nb : ℚ)))

/-- The binning loop of `balance_context_dataset` (context.py, lines
757-764): for each right edge, collect the examples in the truncated dataset
with usefulness below the edge (`None` usefulness raises `TypeError` in the
comparison), and keep those not already claimed by an earlier bin.
`list(set(...) - already_added)` leaves the element order unspecified in
Python; it is modelled by `dedup` followed by a membership filter. -/
def binLoop (examples : List ContextRetrievalExample) :
    List ℚ → List ContextRetrievalExample →
      Except String (List (List ContextRetrievalExample))
  | [], _ => Except.ok []
  | edge :: rest, alreadyAdded => do
    let binExamples ← pyFilterM (fun e =>
        match e.usefulness with
        | some u => Except.ok (decide (u < edge))
        | none => Except.error ("TypeError")) examples
    let bins ← binLoop examples rest (alreadyAdded ++ binExamples)
    pure ((binExamples.dedup.filter (fun e => decide (e ∉ alreadyAdded))) :: bins)

/-- `NeuralContextRetriever.balance_context_dataset` (context.py, lines
720-771): stage-1 equalization, binning by usefulness, truncation of every
bin to the smallest non-empty bin's size, and concatenation. -/
def balance_context_dataset (examples : List ContextRetrievalExample) (bins_nb : ℕ) :
    Except String (List ContextRetrievalExample) :=
  if bins_nb = 0 then Except.error ("ZeroDivisionError")
  else do
    let exs ← balanceStage1 examples
    let bins ← binLoop exs (binRightEdges bins_nb) []
    let minLen ← pyMinNat ((bins.filter (fun b => !b.isEmpty)).map List.length)
    pure ((bins.map (fun b => b.take minLen)).flatten)

/-- A correctly-predicted example with usefulness `0`. -/
def exCorrect : ContextRetrievalExample := ⟨["a"], ["b"], "left", some 0, some true⟩

/-- An incorrectly-predicted example with usefulness `1`. -/
def exIncorrect : ContextRetrievalExample := ⟨["c"], ["d"], "left", some 1, some false⟩

/-- Claim C4 as stated is FALSE on the code: binning happens *after* the
correctness equalization and truncates bins without regard to correctness;
moreover an example whose usefulness is exactly `1` satisfies no strict
`usefulness < edge` test and silently falls out of every bin.  On the
two-example dataset `[exCorrect, exIncorrect]` (usefulness `0` and `1`) with
2 bins, the returned dataset is `[exCorrect]`: 1 correct-sourced example and
0 incorrect-sourced ones. -/
theorem balanced_counts_not_equal_counterexample :
    (balance_context_dataset [exCorrect, exIncorrect] 2).map
        (fun r => (r.countP (fun e => pyTruthy e.sent_was_correctly_predicted),
          r.countP (fun e => !pyTruthy e.sent_was_correctly_predicted)))
      = Except.ok (1, 0)
      ∧ (1 : ℕ) ≠ 0 :=
  ⟨by with_unfolding_all decide, by decide⟩

/-- Claim C4, amended: the equal-count property holds for the first
balancing stage — after splitting by baseline correctness and truncating to
the smaller group, the two groups have exactly equal counts; the final
result (after usefulness binning) need not preserve this equality. -/
theorem balance_stage1_equalizes (examples : List ContextRetrievalExample)
    (l : List ContextRetrievalExample)
    (h : balanceStage1 examples = Except.ok l) :
    l.countP (fun e => pyTruthy e.sent_was_correctly_predicted)
      = l.countP (fun e => !pyTruthy e.sent_was_correctly_predicted) := by
  rw [balanceStage1] at h
  split at h
  · cases h
  · split at h
    · cases h
    · injection h with h
      subst h
      rw [List.countP_append, List.countP_append]
      have hc : ∀ (p : ContextRetrievalExample → Bool) (k : ℕ) (xs : List ContextRetrievalExample),
          List.countP p (List.take k (xs.filter p)) = (List.take k (xs.filter p)).length :=
        fun p k xs => List.countP_eq_length.mpr
          (fun a ha => List.of_mem_filter (List.mem_of_mem_take ha))
      have hz : ∀ (p q : ContextRetrievalExample → Bool) (k : ℕ)
          (xs : List ContextRetrievalExample), (∀ e, p e = !q e) →
          List.countP q (List.take k (xs.filter p)) = 0 :=
        fun p q k xs hpq => List.countP_eq_zero.mpr (fun a ha => by
          have h1 := List.of_mem_filter (List.mem_of_mem_take ha)
          rw [hpq a, Bool.not_eq_true'] at h1
          simp [h1])
      rw [hc, hc (fun e => !pyTruthy e.sent_was_correctly_predicted),
        hz (fun e => !pyTruthy e.sent_was_correctly_predicted)
          (fun e => pyTruthy e.sent_was_correctly_predicted) _ _
          (fun e => rfl),
        hz (fun e => pyTruthy e.sent_was_correctly_predicted)
          (fun e => !pyTruthy e.sent_was_correctly_predicted) _ _
          (fun e => (Bool.not_not _).symm)]
      rw [List.length_take, List.length_take]
      omega

/-- Witness for the amended claim C4: the concrete two-example dataset is
already balanced by stage 1. -/
theorem balance_stage1_equalizes_witness :
    List.countP (fun e => pyTruthy e.sent_was_correctly_predicted)
        [exCorrect, exIncorrect]
      = List.countP (fun e => !pyTruthy e.sent_was_correctly_predicted)
        [exCorrect, exIncorrect] :=
  balance_stage1_equalizes [exCorrect, exIncorrect] [exCorrect, exIncorrect]
    (by with_unfolding_all rfl)

/-! ### The training-set generation pipeline -/

/-- Dict lookup `tag_to_id[tag]`, raising `KeyError` on a missing key. -/
def tagLookup (tagToId : List (String × ℕ)) (tag : String) : Except String ℕ :=
  match tagToId.find? (fun p => p.1 == tag) with
  | some p => Except.ok p.2
  | none => Except.error ("KeyError")

/-- Python `max` over a list of rationals: raises `ValueError` on an empty
list. -/
def pyMaxQ : List ℚ → Except String ℚ
  | [] => Except.error ("ValueError")
  | a :: as => Except.ok (as.foldl max a)

/-- `NeuralContextRetriever._pred_error` (context.py, lines 547-564): per
gold tag, `1 - pred_scores[tag_i][tag_to_id[tag]]`, then the maximum over
tokens (worst token dominates). -/
def predErrorFn (tags : List String) (predScores : List (List ℚ))
    (tagToId : List (String × ℕ)) : Except String ℚ := do
  let errs ← pyMapM (fun p => do
      let row ← pyGet predScores p.1
      let tid ← tagLookup tagToId p.2
      let score ← pyGet row tid
      pure (1 - score)) (pyEnumFrom 0 tags)
  pyMaxQ errs

/-- `sent_with_ctx_from_matchs` (context.py, lines 65-76): one copy of the
sentence per match, with the match's sentence as sole left or right
context. -/
def sent_with_ctx_from_matchs (sent : NERSentence)
    (ctx_matchs : List ContextRetrievalMatch) : List NERSentence :=
  ctx_matchs.map (fun m =>
    NERSentence.mk sent.tokens sent.tags
      (if m.side == Side.left then [m.sentence] else [])
      (if m.side == Side.right then [m.sentence] else []))

/-- The context-token extraction of `generate_context_dataset` (context.py,
lines 694-698): `ctx_sent.left_context[0].tokens` when the left context is a
singleton, else `ctx_sent.right_context[0].tokens`. -/
def contextTokensOf (s : NERSentence) : Except String (List String) :=
  if s.left_context.length = 1 then
    match s.left_context with
    | c :: _ => Except.ok c.tokens
    | [] => Except.error ("IndexError")
  else
    match s.right_context with
    | c :: _ => Except.ok c.tokens
    | [] => Except.error ("IndexError")

/-- The string form of a side tag, as stored on examples. -/
def sideStr : Side → String
  | .left => "left"
  | .right => "right"

/-- Python three-way `zip`: truncates to the shortest input. -/
def pyZip3 : List α → List β → List γ → List (α × β × γ)
  | a :: as, b :: bs, c :: cs => (a, b, c) :: pyZip3 as bs cs
  | _, _, _ => []

/-- The per-sentence data consumed by one iteration of the generation loop
of `generate_context_dataset`: the sentence's tokens and gold tags, the NER
model's predicted tags and per-token score matrix for the unaided sentence,
the heuristic context matches sampled for it, and the per-candidate score
matrices obtained by re-running NER with each candidate as sole context (the
external `predict` calls and the heuristic sampling are data here). -/
structure SentData : Type where
  sent_tokens : List String
  sent_tags : List String
  pred_tags : List String
  pred_scores : List (List ℚ)
  ctx_matchs : List ContextRetrievalMatch
  ctx_pred_scores : List (List (List ℚ))

/-- The per-sentence example construction of `generate_context_dataset`
(context.py, lines 676-707), given the already-computed unaided prediction
error `pred_error`: compute each candidate's contextualized error, pair the
usefulness `pred_error - pred_ctx_error` with the candidate's side, and, if
any usefulness strictly exceeds the threshold, emit one example per
candidate (sentence tokens, injected context tokens, side, usefulness, and
whether the unaided prediction was correct); otherwise emit nothing. -/
def genSentStep (threshold : ℚ) (tagToId : List (String × ℕ)) (pred_error : ℚ)
    (d : SentData) : Except String (List ContextRetrievalExample) := do
  let ctxErrs ← pyMapM (fun p => predErrorFn d.sent_tags p.1 tagToId)
    (d.ctx_pred_scores.zip d.ctx_matchs)
  if (ctxErrs.map (fun e => pred_error - e)).any (fun u => decide (u > threshold)) then
    pyMapM (fun t => (contextTokensOf t.2.2).map (fun contextTokens =>
        (⟨d.sent_tokens, contextTokens, sideStr t.2.1, some t.1,
          some (d.sent_tags == d.pred_tags)⟩ : ContextRetrievalExample)))
      (pyZip3 (ctxErrs.map (fun e => pred_error - e))
        ((d.ctx_pred_scores.zip d.ctx_matchs).map (fun p => p.2.side))
        (sent_with_ctx_from_matchs (NERSentence.mk d.sent_tokens d.sent_tags [] [])
          d.ctx_matchs))
  else
    pure []

/-- The main loop of `generate_context_dataset` (context.py, lines 634-718):
iterate over the corpus sentences, skipping correctly-predicted ones when
`skip_correct`, computing the unaided prediction error, truncating the
accumulated examples and stopping once `max_examples_nb` is reached (the cap
is only checked at the start of a later iteration), and otherwise appending
the sentence's examples. -/
def generateLoop (maxNb : Option ℕ) (threshold : ℚ) (skipCorrect : Bool)
    (tagToId : List (String × ℕ)) :
    List SentData → List ContextRetrievalExample →
      Except String (List ContextRetrievalExample)
  | [], acc => Except.ok acc
  | d :: rest, acc =>
    if skipCorrect && (d.pred_tags == d.sent_tags) then
      generateLoop maxNb threshold skipCorrect tagToId rest acc
    else do
      let pe ← predErrorFn d.sent_tags d.pred_scores tagToId
      match maxNb with
      | some m =>
        if m ≤ acc.length then Except.ok (acc.take m)
        else do
          let exs ← genSentStep threshold tagToId pe d
          generateLoop maxNb threshold skipCorrect tagToId rest (acc ++ exs)
      | none => do
        let exs ← genSentStep threshold tagToId pe d
        generateLoop maxNb threshold skipCorrect tagToId rest (acc ++ exs)

/-- `NeuralContextRetriever.generate_context_dataset` (context.py, lines
566-718), with the NER model's outputs and the heuristic candidates
precomputed in each sentence's `SentData`, starting from an empty example
accumulator. -/
def generate_context_dataset (maxNb : Option ℕ) (threshold : ℚ)
    (skipCorrect : Bool) (tagToId : List (String × ℕ)) (sents : List SentData) :
    Except String (List ContextRetrievalExample) :=
  generateLoop maxNb threshold skipCorrect tagToId sents []

/-- The `{"O": 0, "B-PER": 1}` tag vocabulary used in concrete runs. -/
def tagToIdEx : List (String × ℕ) := [("O", 0), ("B-PER", 1)]

/-- A sentence whose unaided prediction is wrong (error 1) and whose two
candidates each reduce the error to 0 (usefulness 1). -/
def sentDataTwoGood : SentData :=
  { sent_tokens := ["John"]
    sent_tags := ["B-PER"]
    pred_tags := ["O"]
    pred_scores := [[1, 0]]
    ctx_matchs := [⟨s0, 1, Side.right, none⟩, ⟨s2, 2, Side.right, none⟩]
    ctx_pred_scores := [[[0, 1]], [[0, 1]]] }

/-- Claim C7 is FALSE on the code (a bug): the cap is only enforced at the
start of a *later* loop iteration, so when the final contributing sentence
pushes the count past `max_examples_nb`, the dataset is returned untruncated,
contradicting the docstring "max number of examples in the generated
dataset".  With `max_examples_nb = 1` and a single sentence contributing two
examples, two examples are returned; only when a further sentence follows is
the accumulated list truncated to one. -/
theorem generate_exceeds_max_examples :
    (generate_context_dataset (some 1) 0 false tagToIdEx [sentDataTwoGood]).map
        List.length = Except.ok 2
      ∧ (generate_context_dataset (some 1) 0 false tagToIdEx
          [sentDataTwoGood, sentDataTwoGood]).map List.length = Except.ok 1 :=
  ⟨by with_unfolding_all decide, by with_unfolding_all decide⟩

theorem zip_nil_left' (l : List β) : ([] : List α).zip l = [] := rfl

theorem zip_nil_right' (l : List α) : l.zip ([] : List β) = [] := by
  cases l <;> rfl

theorem zip_cons_cons' (a : α) (b : β) (as : List α) (bs : List β) :
    (a :: as).zip (b :: bs) = (a, b) :: as.zip bs := rfl

theorem contextTokensOf_sentWith (tokens tags : List String)
    (m : ContextRetrievalMatch) :
    contextTokensOf (NERSentence.mk tokens tags
        (if m.side == Side.left then [m.sentence] else [])
        (if m.side == Side.right then [m.sentence] else []))
      = Except.ok m.sentence.tokens := by
  cases hm : m.side <;> rfl

theorem genStep_emit_forall₂ (pe : ℚ) (tagToId : List (String × ℕ))
    (sent_tokens sent_tags pred_tags : List String) :
    ∀ (scoresL : List (List (List ℚ))) (ms : List ContextRetrievalMatch)
      (ctxErrs : List ℚ) (exs : List ContextRetrievalExample),
      pyMapM (fun p => predErrorFn sent_tags p.1 tagToId) (scoresL.zip ms)
        = Except.ok ctxErrs →
      pyMapM (fun t => (contextTokensOf t.2.2).map (fun contextTokens =>
          (⟨sent_tokens, contextTokens, sideStr t.2.1, some t.1,
            some (sent_tags == pred_tags)⟩ : ContextRetrievalExample)))
        (pyZip3 (ctxErrs.map (fun e => pe - e))
          ((scoresL.zip ms).map (fun p => p.2.side))
          (sent_with_ctx_from_matchs (NERSentence.mk sent_tokens sent_tags [] []) ms))
        = Except.ok exs →
      List.Forall₂ (fun (p : List (List ℚ) × ContextRetrievalMatch) ex =>
          ∃ err, predErrorFn sent_tags p.1 tagToId = Except.ok err ∧
            ex.usefulness = some (pe - err) ∧ ex.sent = sent_tokens ∧
            ex.context = p.2.sentence.tokens ∧ ex.context_side = sideStr p.2.side ∧
            ex.sent_was_correctly_predicted = some (sent_tags == pred_tags))
        (scoresL.zip ms) exs := by
  intro scoresL
  induction scoresL with
  | nil =>
    intro ms ctxErrs exs h1 h2
    rw [zip_nil_left' ms] at h1 ⊢
    rw [pyMapM] at h1
    injection h1 with h1
    subst h1
    rw [zip_nil_left' ms, List.map_nil, List.map_nil] at h2
    rw [show pyZip3 ([] : List ℚ) ([] : List Side)
        (sent_with_ctx_from_matchs (NERSentence.mk sent_tokens sent_tags [] []) ms)
      = [] from rfl] at h2
    rw [pyMapM] at h2
    injection h2 with h2
    subst h2
    exact List.Forall₂.nil
  | cons s ss ih =>
    intro ms ctxErrs exs h1 h2
    cases ms with
    | nil =>
      rw [zip_nil_right' (s :: ss)] at h1 ⊢
      rw [pyMapM] at h1
      injection h1 with h1
      subst h1
      rw [zip_nil_right' (s :: ss), List.map_nil, List.map_nil] at h2
      rw [show pyZip3 ([] : List ℚ) ([] : List Side)
          (sent_with_ctx_from_matchs (NERSentence.mk sent_tokens sent_tags [] []) [])
        = [] from rfl] at h2
      rw [pyMapM] at h2
      injection h2 with h2
      subst h2
      exact List.Forall₂.nil
    | cons m msr =>
      rw [zip_cons_cons' s m ss msr] at h1 ⊢
      rcases pyMapM_cons_ok h1 with ⟨err, errs, herr, h1rest, rfl⟩
      rw [zip_cons_cons' s m ss msr, List.map_cons, List.map_cons,
        sent_with_ctx_from_matchs, List.map_cons, pyZip3] at h2
      rcases pyMapM_cons_ok h2 with ⟨ex1, exr, hex1, h2rest, rfl⟩
      have hex1' : (contextTokensOf (NERSentence.mk
            (NERSentence.mk sent_tokens sent_tags [] []).tokens
            (NERSentence.mk sent_tokens sent_tags [] []).tags
            (if m.side == Side.left then [m.sentence] else [])
            (if m.side == Side.right then [m.sentence] else []))).map
          (fun contextTokens =>
            (⟨sent_tokens, contextTokens, sideStr m.side, some (pe - err),
              some (sent_tags == pred_tags)⟩ : ContextRetrievalExample))
          = Except.ok ex1 := hex1
      rw [show (NERSentence.mk sent_tokens sent_tags [] []).tokens = sent_tokens from rfl,
        show (NERSentence.mk sent_tokens sent_tags [] []).tags = sent_tags from rfl,
        contextTokensOf_sentWith, except_map_ok] at hex1'
      injection hex1' with hex1'
      refine List.Forall₂.cons ?_ ?_
      · exact ⟨err, herr, by rw [← hex1']; exact ⟨rfl, rfl, rfl, rfl, rfl⟩⟩
      · exact ih msr errs exr h1rest h2rest

/-- Claim C8: in `generate_context_dataset`, each candidate's usefulness is
the unaided prediction error minus the contextualized prediction error, and,
per source sentence, one labeled example per candidate is emitted exactly
when some candidate's usefulness strictly exceeds the threshold; otherwise
the sentence's whole pool is discarded.  Stated on the per-sentence step
`genSentStep` (the loop body, given the already-computed unaided error
`pe`): whenever the step succeeds, the candidate pool pairs up 1-1 with the
emitted examples — each example carrying its candidate's tokens, side,
usefulness `pe - err` and the baseline-correctness flag — if some usefulness
exceeds the threshold, and the step emits nothing if none does. -/
theorem generation_emits_iff_threshold_exceeded
    (threshold : ℚ) (tagToId : List (String × ℕ)) (pe : ℚ) (d : SentData)
    (exs : List ContextRetrievalExample)
    (h : genSentStep threshold tagToId pe d = Except.ok exs) :
    ∃ ctxErrs,
      pyMapM (fun p => predErrorFn d.sent_tags p.1 tagToId)
        (d.ctx_pred_scores.zip d.ctx_matchs) = Except.ok ctxErrs
      ∧ ((∃ e ∈ ctxErrs, pe - e > threshold) →
          List.Forall₂ (fun (p : List (List ℚ) × ContextRetrievalMatch) ex =>
            ∃ err, predErrorFn d.sent_tags p.1 tagToId = Except.ok err ∧
              ex.usefulness = some (pe - err) ∧ ex.sent = d.sent_tokens ∧
              ex.context = p.2.sentence.tokens ∧
              ex.context_side = sideStr p.2.side ∧
              ex.sent_was_correctly_predicted = some (d.sent_tags == d.pred_tags))
            (d.ctx_pred_scores.zip d.ctx_matchs) exs)
      ∧ ((∀ e ∈ ctxErrs, ¬ pe - e > threshold) → exs = []) := by
  rw [genSentStep] at h
  cases hce : pyMapM (fun p => predErrorFn d.sent_tags p.1 tagToId)
      (d.ctx_pred_scores.zip d.ctx_matchs) with
  | error e => rw [hce, except_bind_error] at h; cases h
  | ok ctxErrs =>
    rw [hce, except_bind_ok] at h
    split at h
    · next hcond =>
      refine ⟨ctxErrs, rfl, fun _ => ?_, fun hall => ?_⟩
      · exact genStep_emit_forall₂ pe tagToId d.sent_tokens d.sent_tags d.pred_tags
          d.ctx_pred_scores d.ctx_matchs ctxErrs exs hce h
      · exfalso
        rcases List.any_eq_true.mp hcond with ⟨u, hu, hdec⟩
        rcases List.mem_map.mp hu with ⟨e, he, rfl⟩
        exact hall e he (of_decide_eq_true hdec)
    · next hcond =>
      have h' : Except.ok ([] : List ContextRetrievalExample) = Except.ok exs := h
      injection h' with h'
      refine ⟨ctxErrs, rfl, fun hex => ?_, fun _ => h'.symm⟩
      exfalso
      apply hcond
      rcases hex with ⟨e, he, hgt⟩
      exact List.any_eq_true.mpr ⟨pe - e, List.mem_map_of_mem _ he, decide_eq_true hgt⟩

/-- The spec's scenario data for claim C8: unaided error `4/5`, one candidate
with contextualized error `3/10`. -/
def sentDataScenario : SentData :=
  { sent_tokens := ["John"]
    sent_tags := ["B-PER"]
    pred_tags := ["O"]
    pred_scores := [[1, 1/5]]
    ctx_matchs := [⟨s0, 2, Side.right, none⟩]
    ctx_pred_scores := [[[0, 7/10]]] }

/-- Witness for claim C8: the spec's scenario — baseline error `0.8`, one
candidate with contextualized error `0.3`, threshold `0.1` — emits exactly
one example, with usefulness `0.5`, the candidate's side and a `false`
baseline-correctness flag. -/
theorem generation_emits_iff_threshold_exceeded_witness :
    ∃ ctxErrs,
      pyMapM (fun p => predErrorFn sentDataScenario.sent_tags p.1 tagToIdEx)
        (sentDataScenario.ctx_pred_scores.zip sentDataScenario.ctx_matchs)
        = Except.ok ctxErrs
      ∧ ((∃ e ∈ ctxErrs, 4/5 - e > 1/10) →
          List.Forall₂ (fun (p : List (List ℚ) × ContextRetrievalMatch)
              (ex : ContextRetrievalExample) =>
            ∃ err, predErrorFn sentDataScenario.sent_tags p.1 tagToIdEx
                = Except.ok err ∧
              ex.usefulness = some (4/5 - err) ∧
              ex.sent = sentDataScenario.sent_tokens ∧
              ex.context = p.2.sentence.tokens ∧
              ex.context_side = sideStr p.2.side ∧
              ex.sent_was_correctly_predicted
                = some (sentDataScenario.sent_tags == sentDataScenario.pred_tags))
            (sentDataScenario.ctx_pred_scores.zip sentDataScenario.ctx_matchs)
            [⟨["John"], ["Hello"], "right", some (1/2), some false⟩])
      ∧ ((∀ e ∈ ctxErrs, ¬ 4/5 - e > 1/10) →
          ([⟨["John"], ["Hello"], "right", some (1/2), some false⟩]
            : List ContextRetrievalExample) = []) :=
  generation_emits_iff_threshold_exceeded (1/10) tagToIdEx (4/5) sentDataScenario
    [⟨["John"], ["Hello"], "right", some (1/2), some false⟩]
    (by with_unfolding_all decide)

/-! ### The frame property of `ContextRetriever.__call__` -/

/-- The sentence written back by `ContextRetriever.__call__` for the
sentence at index `i`: same tokens and tags, left and right context slots
filled from the retrieved matches, split by side. -/
def callSent (retrieve : ℕ → List NERSentence → List ContextRetrievalMatch)
    (doc : List NERSentence) (i : ℕ) (sent : NERSentence) : NERSentence :=
  NERSentence.mk sent.tokens sent.tags
    (((retrieve i doc).filter (fun m => m.side == Side.left)).map (fun m => m.sentence))
    (((retrieve i doc).filter (fun m => m.side == Side.right)).map (fun m => m.sentence))

/-- The inner `for sent_i, sent in enumerate(document)` loop of
`ContextRetriever.__call__`. -/
def callDocAux (retrieve : ℕ → List NERSentence → List ContextRetrievalMatch)
    (doc : List NERSentence) : ℕ → List NERSentence → List NERSentence
  | _, [] => []
  | i, sent :: rest => callSent retrieve doc i sent :: callDocAux retrieve doc (i + 1) rest

/-- `ContextRetriever.__call__` (context.py, lines 36-52), abstracted over
the polymorphic `self.retrieve`: rebuild every document sentence by
sentence.  The dataset-level bookkeeping (`tags`, `tokenizer`) is external
to the documents and carried over unchanged by the code. -/
def retrieverCall (retrieve : ℕ → List NERSentence → List ContextRetrievalMatch)
    (docs : List (List NERSentence)) : List (List NERSentence) :=
  docs.map (fun doc => callDocAux retrieve doc 0 doc)

theorem callDocAux_length (retrieve : ℕ → List NERSentence → List ContextRetrievalMatch)
    (doc : List NERSentence) :
    ∀ (rest : List NERSentence) (i : ℕ),
      (callDocAux retrieve doc i rest).length = rest.length := by
  intro rest
  induction rest with
  | nil => intro i; rfl
  | cons sent rest ih => intro i; simp [callDocAux, ih]

theorem callDocAux_getD (retrieve : ℕ → List NERSentence → List ContextRetrievalMatch)
    (doc : List NERSentence) :
    ∀ (rest : List NERSentence) (i j : ℕ), j < rest.length →
      (callDocAux retrieve doc i rest).getD j default
        = callSent retrieve doc (i + j) (rest.getD j default) := by
  intro rest
  induction rest with
  | nil => intro i j h; cases h
  | cons sent rest ih =>
    intro i j hj
    cases j with
    | zero => rfl
    | succ j =>
      have h' := ih (i + 1) j (by simpa using Nat.lt_of_succ_lt_succ hj)
      have harith : i + 1 + j = i + (j + 1) := by omega
      rw [harith] at h'
      simpa only [callDocAux, List.getD_cons_succ] using h'

theorem retrieverCall_getD (retrieve : ℕ → List NERSentence → List ContextRetrievalMatch)
    (docs : List (List NERSentence)) (i : ℕ) :
    (retrieverCall retrieve docs).getD i []
      = callDocAux retrieve (docs.getD i []) 0 (docs.getD i []) := by
  rw [retrieverCall]
  rcases Nat.lt_or_ge i docs.length with h | h
  · rw [List.getD_eq_getElem?_getD, List.getElem?_map, List.getElem?_eq_getElem h,
      List.getD_eq_getElem?_getD, List.getElem?_eq_getElem h]
    rfl
  · rw [List.getD_eq_getElem?_getD, List.getElem?_eq_none (by simpa using h),
      List.getD_eq_getElem?_getD, List.getElem?_eq_none h]
    rfl

/-- Claim C10: applying a `ContextRetriever` via `__call__` preserves the
number of documents, each document's number of sentences and their order,
and every output sentence's tokens and tags; only the left and right context
slots are replaced, by exactly the retrieved matches of the corresponding
side. -/
theorem retriever_call_frame
    (retrieve : ℕ → List NERSentence → List ContextRetrievalMatch)
    (docs : List (List NERSentence)) (i j : ℕ)
    (hj : j < (docs.getD i []).length) :
    (retrieverCall retrieve docs).length = docs.length
      ∧ ((retrieverCall retrieve docs).getD i []).length = (docs.getD i []).length
      ∧ (((retrieverCall retrieve docs).getD i []).getD j default).tokens
          = ((docs.getD i []).getD j default).tokens
      ∧ (((retrieverCall retrieve docs).getD i []).getD j default).tags
          = ((docs.getD i []).getD j default).tags
      ∧ (((retrieverCall retrieve docs).getD i []).getD j default).left_context
          = ((retrieve j (docs.getD i [])).filter (fun m => m.side == Side.left)).map
              (fun m => m.sentence)
      ∧ (((retrieverCall retrieve docs).getD i []).getD j default).right_context
          = ((retrieve j (docs.getD i [])).filter (fun m => m.side == Side.right)).map
              (fun m => m.sentence) := by
  have hgd := retrieverCall_getD retrieve docs i
  have hget := callDocAux_getD retrieve (docs.getD i []) (docs.getD i []) 0 j hj
  rw [Nat.zero_add] at hget
  refine ⟨by rw [retrieverCall, List.length_map], ?_, ?_, ?_, ?_, ?_⟩
  · rw [hgd, callDocAux_length]
  · rw [hgd, hget]; rfl
  · rw [hgd, hget]; rfl
  · rw [hgd, hget]; rfl
  · rw [hgd, hget]; rfl

/-- A concrete match used by the C10 witness. -/
def mC10 : ContextRetrievalMatch := ⟨s2, 5, Side.left, none⟩

/-- Witness for claim C10: a concrete one-document dataset and a retriever
constantly returning one left-side match, evaluated at document 0,
sentence 1. -/
theorem retriever_call_frame_witness :
    (retrieverCall (fun _ _ => [mC10]) [[s0, s1]]).length = ([[s0, s1]] : List (List NERSentence)).length
      ∧ ((retrieverCall (fun _ _ => [mC10]) [[s0, s1]]).getD 0 []).length
          = (([[s0, s1]] : List (List NERSentence)).getD 0 []).length
      ∧ (((retrieverCall (fun _ _ => [mC10]) [[s0, s1]]).getD 0 []).getD 1 default).tokens
          = ((([[s0, s1]] : List (List NERSentence)).getD 0 []).getD 1 default).tokens
      ∧ (((retrieverCall (fun _ _ => [mC10]) [[s0, s1]]).getD 0 []).getD 1 default).tags
          = ((([[s0, s1]] : List (List NERSentence)).getD 0 []).getD 1 default).tags
      ∧ (((retrieverCall (fun _ _ => [mC10]) [[s0, s1]]).getD 0 []).getD 1 default).left_context
          = (((fun (_ : ℕ) (_ : List NERSentence) => [mC10]) 1
                (([[s0, s1]] : List (List NERSentence)).getD 0 [])).filter
              (fun m => m.side == Side.left)).map (fun m => m.sentence)
      ∧ (((retrieverCall (fun _ _ => [mC10]) [[s0, s1]]).getD 0 []).getD 1 default).right_context
          = (((fun (_ : ℕ) (_ : List NERSentence) => [mC10]) 1
                (([[s0, s1]] : List (List NERSentence)).getD 0 [])).filter
              (fun m => m.side == Side.right)).map (fun m => m.sentence) :=
  retriever_call_frame (fun _ _ => [mC10]) [[s0, s1]] 0 1 (by decide)

end Conivel
